import Mathlib

/-!
Shallow embedding, in Lean 4, of the price-discovery and valuation engine of
the internal-oracle-usdc repository: the CoW Swap rate limiter and quote
client (src/cowswap/cow_client.py), the multi-aggregator comparator and the
LP decomposition / reconciliation logic of the balance managers
(src/pendle/balance_manager.py, src/equilibria/balance_manager.py).

Conventions of the embedding:
- Python Decimal arithmetic is modelled by exact rational arithmetic (ℚ);
  the int(...) truncation of a non-negative Decimal is modelled by
  Rat.floor followed by Int.toNat.
- All monetary amounts are natural numbers in minor units, as in the code.
- Network interaction is modelled by an environment function mapping the
  request payload that varies (the sellAmountBeforeFee of a make_request
  call, or a backend name) to the observed outcome; sleeping and wall-clock
  reads are time effects without state content and are dropped, except where
  a state field records a timestamp, which is then passed in as a parameter.
-/

/-- State of the cow_client RateLimiter object. The configuration attributes
set in 'RateLimiter.__init__' and never reassigned anywhere (max_backoff,
circuit_breaker_threshold, circuit_breaker_timeout) are modelled as the
constants below rather than as mutable fields. -/
structure RateLimiter where
  lastRequestTime : ℚ
  minDelay : ℚ
  backoffDelay : ℕ
  consecutiveFailures : ℕ
  circuitBreakerTriggered : Bool
  circuitBreakerTime : ℚ
deriving DecidableEq

/-- max_backoff = 120 seconds, set in RateLimiter.__init__. -/
def maxBackoff : ℕ := 120

/-- circuit_breaker_threshold = 5, set in RateLimiter.__init__. -/
def circuitBreakerThreshold : ℕ := 5

/-- circuit_breaker_timeout = 300 seconds, set in RateLimiter.__init__. -/
def circuitBreakerTimeout : ℕ := 300

/-- The state produced by RateLimiter.__init__: last_request_time = 0,
min_delay = 1.5, backoff_delay = 0, consecutive_failures = 0,
circuit_breaker_triggered = False, circuit_breaker_time = 0. -/
def initRateLimiter : RateLimiter :=
  { lastRequestTime := 0
    minDelay := 3 / 2
    backoffDelay := 0
    consecutiveFailures := 0
    circuitBreakerTriggered := false
    circuitBreakerTime := 0 }

/-- RateLimiter.wait_if_needed: sleeps until min_delay + backoff_delay has
elapsed since last_request_time, then records the current clock as
last_request_time. The post-sleep clock reading is passed as tAfter; no
other field changes. -/
def RateLimiter.waitIfNeeded (st : RateLimiter) (tAfter : ℚ) : RateLimiter :=
  { st with lastRequestTime := tAfter }

/-- RateLimiter.handle_rate_limit_error: sets backoff_delay to 2 on first
failure, otherwise doubles it capped at max_backoff, then sleeps
backoff_delay plus jitter. The sleep is a time effect; no other field of
the state is touched. -/
def RateLimiter.handleRateLimitError (st : RateLimiter) : RateLimiter :=
  { st with
    backoffDelay := if st.backoffDelay = 0 then 2 else min (st.backoffDelay * 2) maxBackoff }

/-- RateLimiter.reset_backoff: zeroes backoff_delay when it is positive
(called by make_request after a successful response). -/
def RateLimiter.resetBackoff (st : RateLimiter) : RateLimiter :=
  { st with backoffDelay := if 0 < st.backoffDelay then 0 else st.backoffDelay }

/-- RateLimiter.adjust_delay_for_load: sets min_delay to 3.0 above 10
expected concurrent requests, 2.0 above 5, and 1.5 otherwise. -/
def RateLimiter.adjustDelayForLoad (st : RateLimiter) (concurrentRequests : ℕ) : RateLimiter :=
  { st with
    minDelay :=
      if 10 < concurrentRequests then 3
      else if 5 < concurrentRequests then 2
      else 3 / 2 }

/-- reset_rate_limiter (module level): rebinds the global rate_limiter to a
freshly constructed RateLimiter, discarding the previous state. -/
def resetRateLimiter (_st : RateLimiter) : RateLimiter := initRateLimiter

/-- Python substring test: strContains s pat models the expression
pat in s. -/
def strContains (s pat : String) : Bool :=
  decide (pat.toList <:+: s.toList)

/-- Outcome of one make_request call inside get_quote: a parsed JSON dict
whose quote member carries buyAmount, sellAmount, feeAmount and an optional
priceImpact string (okQuote); an error string, either response.text of a
terminal HTTP error or the literal Request failed after all retries
(errText); or a parsed dict without a quote member (malformed). -/
inductive MakeRequestResult where
  | okQuote (buyAmount sellAmount feeAmount : ℕ) (priceImpact : String)
  | errText (s : String)
  | malformed
deriving DecidableEq

/-- The quote payload returned by get_quote: buyAmount, sellAmount and
feeAmount in minor units. -/
structure QuotePayload where
  buyAmount : ℕ
  sellAmount : ℕ
  feeAmount : ℕ
deriving DecidableEq

/-- The conversion_details dict built by get_quote. fee_percentage is a
numeric percentage where the code renders a Decimal (the literal 0.0000
percent of the identity branch is some 0) and none where the code stores
N/A. -/
structure ConversionDetails where
  source : String
  priceImpact : String
  rate : ℚ
  feePercentage : Option ℚ
  fallback : Bool
  note : String
deriving DecidableEq

/-- Return value of get_quote: the quote payload (none when all attempts
failed) and the conversion_details. -/
structure GetQuoteResult where
  quote : Option QuotePayload
  conversionDetails : ConversionDetails
deriving DecidableEq

/-- A get_quote run together with the list of sellAmountBeforeFee values it
sent to make_request, in order; the list length is the number of
make_request invocations (each of which performs at least one network
call). -/
structure GetQuoteTrace where
  result : GetQuoteResult
  requests : List ℕ
deriving DecidableEq

/-- The dict returned by get_quote when every attempt failed: quote None,
source Failed, rate 0, fallback True. -/
def failedQuoteResult : GetQuoteResult :=
  { quote := none
    conversionDetails :=
      { source := "Failed"
        priceImpact := "N/A"
        rate := 0
        feePercentage := none
        fallback := true
        note := "All quote attempts failed" } }

/-- get_quote of src/cowswap/cow_client.py. The env argument maps the
sellAmountBeforeFee of a make_request call to its outcome; the internal
retry loop of make_request (bounded by max_retries) is folded into that
outcome. network, sell_token and buy_token only shape the request URL and
body and do not influence the control flow modelled here. -/
def getQuote (network sellToken buyToken : String) (amount : ℕ) (tokenDecimals : ℕ)
    (tokenSymbol : String) (env : ℕ → MakeRequestResult) : GetQuoteTrace :=
  if tokenSymbol = "USDC" then
    { result :=
        { quote := some { buyAmount := amount, sellAmount := amount, feeAmount := 0 }
          conversionDetails :=
            { source := "Direct"
              priceImpact := "0"
              rate := 1
              feePercentage := some 0
              fallback := false
              note := "Direct 1:1 conversion" } }
      requests := [] }
  else
    match env amount with
    | .okQuote buy sell fee pi =>
        { result :=
            { quote := some { buyAmount := buy, sellAmount := sell, feeAmount := fee }
              conversionDetails :=
                { source := "CoWSwap"
                  priceImpact := pi
                  rate := ((buy : ℚ) / 10 ^ 6) / ((sell : ℚ) / 10 ^ tokenDecimals)
                  feePercentage := some ((fee : ℚ) / (amount : ℚ) * 100)
                  fallback := false
                  note := "Direct CoWSwap quote" } }
          requests := [amount] }
    | .errText s =>
        if strContains s "SellAmountDoesNotCoverFee" || strContains s "NoLiquidity" ||
            strContains s "Request failed" then
          match env (1000 * 10 ^ tokenDecimals) with
          | .okQuote fbuy fsell _ffee _fpi =>
              let rate : ℚ := ((fbuy : ℚ) / 10 ^ 6) / ((fsell : ℚ) / 10 ^ tokenDecimals)
              let estimatedValue : ℕ :=
                ((((amount : ℚ) / 10 ^ tokenDecimals) * rate) * 10 ^ 6).floor.toNat
              { result :=
                  { quote := some { buyAmount := estimatedValue, sellAmount := amount, feeAmount := 0 }
                    conversionDetails :=
                      { source := "CoWSwap-Fallback"
                        priceImpact := "N/A"
                        rate := rate
                        feePercentage := none
                        fallback := true
                        note := "Using reference amount of 1000 tokens for price discovery" } }
                requests := [amount, 1000 * 10 ^ tokenDecimals] }
          | _ =>
              { result := failedQuoteResult, requests := [amount, 1000 * 10 ^ tokenDecimals] }
        else
          { result := failedQuoteResult, requests := [amount] }
    | .malformed =>
        { result := failedQuoteResult, requests := [amount] }

/-- The batch loop of batch_get_quotes: for i in range(0, len, batchSize)
take the slice reqs[i:i+batchSize], apply get_quote to each request in
order, and append the results. The chunk size is bs + 1, matching the guard
that batch_size is positive. -/
def batchRun {α β : Type} (q : α → β) (bs : ℕ) (l : List α) : List β :=
  match l with
  | [] => []
  | x :: xs => ((x :: xs).take (bs + 1)).map q ++ batchRun q bs (xs.drop bs)
termination_by l.length
decreasing_by
  simp only [List.length_cons, List.length_drop]
  omega

/-- batch_get_quotes of src/cowswap/cow_client.py: processes the requests in
batches of batch_size with a pacing delay between batches (a pure time
effect). A zero batch_size makes range(0, n, 0) raise ValueError. -/
def batchGetQuotes {α β : Type} (q : α → β) (reqs : List α) (batchSize : ℕ) :
    Except String (List β) :=
  match batchSize with
  | 0 => .error "range() arg 3 must not be zero"
  | bs + 1 => .ok (batchRun q bs reqs)

/-- Outcome of querying one aggregator backend inside
_get_multiple_aggregator_quotes: a 200 response whose JSON carries
data.amountOut and data.priceImpact and whose numeric fields parse (ok); a
200 response without those members (invalidResponse); an exception raised
before the cost increment, e.g. from the request itself, raise_for_status
or the JSON parse (requestError); or an exception raised by the
response-handling block after the cost increment — int(amountOut) or
float(priceImpact) failing on a shape-valid 200 response (parseError). -/
inductive AggOutcome where
  | ok (amountOut : ℕ) (priceImpact : ℚ)
  | invalidResponse
  | requestError (msg : String)
  | parseError (msg : String)
deriving DecidableEq

/-- One aggregator backend as configured in the AGGREGATORS table: its name,
its fixed computing-unit cost, and the outcome its query produces in the
run being modelled. -/
structure Backend where
  name : String
  cost : ℕ
  outcome : AggOutcome
deriving DecidableEq

/-- Loop state of _get_multiple_aggregator_quotes: the best candidate so far
as (aggregator name, amountOut, priceImpact), and computing_units_used. -/
structure AggState where
  best : Option (String × ℕ × ℚ)
  unitsUsed : ℕ
deriving DecidableEq

/-- The best_amount variable tracking the loop: 0 before any candidate is
accepted, else the amountOut of the current best. -/
def bestAmountOf : Option (String × ℕ × ℚ) → ℕ
  | some (_, a, _) => a
  | none => 0

/-- One iteration of the aggregator loop: on a valid response the cost is
charged and the candidate replaces the best exactly when its amountOut is
strictly greater; on an invalid response the cost was charged before the
shape check failed; on an exception raised before the charge the cost is
charged once, in the except block. But when the response-handling block
raises after the charge (a parse failure on a shape-valid 200 response),
the except block charges the cost a second time and the candidate is
lost. -/
def aggStep (st : AggState) (b : Backend) : AggState :=
  match b.outcome with
  | .ok a pi =>
      if bestAmountOf st.best < a then
        { best := some (b.name, a, pi), unitsUsed := st.unitsUsed + b.cost }
      else
        { st with unitsUsed := st.unitsUsed + b.cost }
  | .invalidResponse => { st with unitsUsed := st.unitsUsed + b.cost }
  | .requestError _ => { st with unitsUsed := st.unitsUsed + b.cost }
  | .parseError _ => { st with unitsUsed := st.unitsUsed + b.cost + b.cost }

/-- The aggregator loop of _get_multiple_aggregator_quotes, iterating over
the backends in order starting from no best candidate and zero units
consumed by this comparison. -/
def runAggregators (bs : List Backend) : AggState :=
  bs.foldl aggStep { best := none, unitsUsed := 0 }

/-- Return value of _get_multiple_aggregator_quotes: the best (amountOut,
priceImpact, aggregator name) if any candidate was accepted, else the
raised exception. -/
def multiAggregatorQuotes (bs : List Backend) : Except String (ℕ × ℚ × String) :=
  match (runAggregators bs).best with
  | some (name, a, pi) => .ok (a, pi, name)
  | none => .error "All aggregators failed to provide quotes"

/-- The greatest amountOut among the backends that produced a valid
response, 0 when none did. -/
def maxSuccessAmount : List Backend → ℕ
  | [] => 0
  | b :: rest =>
      match b.outcome with
      | .ok a _ => max a (maxSuccessAmount rest)
      | _ => maxSuccessAmount rest

/-- The first backend in iteration order whose valid response reports
exactly the amountOut m, as (name, amountOut, priceImpact). Stated from the
documented selection rule: greatest amountOut wins and ties go to the
backend earlier in iteration order. -/
def findSuccessEq (m : ℕ) : List Backend → Option (String × ℕ × ℚ)
  | [] => none
  | b :: rest =>
      match b.outcome with
      | .ok a pi => if a = m then some (b.name, a, pi) else findSuccessEq m rest
      | _ => findSuccessEq m rest

/-- Sum of the fixed computing-unit costs of all queried backends. -/
def totalCost (bs : List Backend) : ℕ :=
  (bs.map Backend.cost).sum

/-- Sum of the costs of the backends whose shape-valid 200 response failed
numeric parsing after the cost increment: each such backend is charged its
cost a second time in the except block. -/
def parseErrorCost : List Backend → ℕ
  | [] => 0
  | b :: rest =>
      (match b.outcome with
       | .parseError _ => b.cost
       | _ => 0) + parseErrorCost rest

/-- Numeric value of a list of decimal digit characters. -/
def digitsVal (ds : List Char) : ℕ :=
  ds.foldl (fun a c => a * 10 + (c.toNat - 48)) 0

/-- Exponent suffix of a Python float literal: an optional sign followed by
digits, consuming the rest of the string. -/
def pyExp (mantissa : ℚ) (cs : List Char) : Option ℚ :=
  let (neg, cs1) :=
    match cs with
    | '-' :: rest => (true, rest)
    | '+' :: rest => (false, rest)
    | _ => (false, cs)
  let eds := cs1.takeWhile Char.isDigit
  let rest := cs1.dropWhile Char.isDigit
  if eds.isEmpty || !rest.isEmpty then none
  else if neg then some (mantissa / 10 ^ digitsVal eds)
  else some (mantissa * 10 ^ digitsVal eds)

/-- Python float() on a string, restricted to finite decimal literals —
optional sign, digits with optional fractional part and optional decimal
exponent. Any other string, for instance the literal N/A that the
reference-amount fallback and failure paths of get_quote store as
price_impact, makes float() raise ValueError, modelled as none. Float
values are idealized as exact rationals, consistently with the Decimal
convention of this embedding. -/
def pyFloat? (s : String) : Option ℚ :=
  let cs := s.toList
  let (sgn, cs1) :=
    match cs with
    | '-' :: rest => ((-1 : ℚ), rest)
    | '+' :: rest => ((1 : ℚ), rest)
    | _ => ((1 : ℚ), cs)
  let ip := cs1.takeWhile Char.isDigit
  let cs2 := cs1.dropWhile Char.isDigit
  let (fp, cs3) :=
    match cs2 with
    | '.' :: rest => (rest.takeWhile Char.isDigit, rest.dropWhile Char.isDigit)
    | _ => ([], cs2)
  if ip.isEmpty && fp.isEmpty then none
  else
    let mantissa : ℚ := sgn * ((digitsVal ip : ℚ) + (digitsVal fp : ℚ) / 10 ^ fp.length)
    match cs3 with
    | [] => some mantissa
    | 'e' :: rest => pyExp mantissa rest
    | 'E' :: rest => pyExp mantissa rest
    | _ => none

/-- Result of the direct multi-aggregator method inside
get_remove_liquidity_data: the winning amount and price impact. -/
structure DirectResult where
  amount : ℕ
  priceImpact : ℚ
deriving DecidableEq

/-- The tuple returned by get_remove_liquidity_data: amount_out,
price_impact, method_used, direct_result, fallback_result. -/
structure MethodOutcome where
  amount : ℕ
  priceImpact : ℚ
  method : String
  direct : Option DirectResult
  fallback : Option (ℕ × ℚ)
deriving DecidableEq

/-- The comparison-of-methods block of
BalanceManager.get_remove_liquidity_data (the fGHO and cUSDO branches share
this logic verbatim): direct is the surviving multi-aggregator result
(None when it failed or was skipped), cowQuote is the decomposition
fallback outcome of the final CoWSwap quote — its buyAmount together with
the price_impact string of its conversion_details (None when that quote
failed). Before any comparison the code runs
fallback_price_impact = float(price_impact), which raises ValueError when
the CoWSwap quote came through the reference-amount fallback or failure
paths whose price_impact is the literal N/A; the isinstance guard on the
next line can only see a float and is dead code, omitted here. Past that
parse, the method with the higher amount wins, ties go to Direct; with
only one usable value that value is returned; with none an exception is
raised. -/
def reconcileRemoveLiquidity (direct : Option DirectResult)
    (cowQuote : Option (ℕ × String)) : Except String MethodOutcome :=
  match cowQuote with
  | some (fb, piStr) =>
      match pyFloat? piStr with
      | none => .error ("could not convert string to float: " ++ piStr)
      | some fpi =>
          match direct with
          | some d =>
              if 0 < fb then
                if fb ≤ d.amount then
                  .ok { amount := d.amount, priceImpact := d.priceImpact, method := "Direct"
                        direct := some d, fallback := some (fb, fpi) }
                else
                  .ok { amount := fb, priceImpact := fpi, method := "Fallback"
                        direct := some d, fallback := some (fb, fpi) }
              else
                .ok { amount := d.amount, priceImpact := d.priceImpact, method := "Direct"
                      direct := some d, fallback := none }
          | none =>
              if 0 < fb then
                .ok { amount := fb, priceImpact := fpi, method := "Fallback"
                      direct := none, fallback := some (fb, fpi) }
              else
                .error "Both direct and fallback methods failed"
  | none =>
      match direct with
      | some d =>
          .ok { amount := d.amount, priceImpact := d.priceImpact, method := "Direct"
                direct := some d, fallback := none }
      | none => .error "Both direct and fallback methods failed"

/-- Result kept for one underlying leg after the USR sanity-floor logic: the
USDC amount added to the running total and the rate it was priced at. -/
structure UsrConversionOut where
  usdcAmount : ℕ
  rate : ℚ
deriving DecidableEq

/-- The USR leg of the yvBal-GHO-USR branch of get_remove_liquidity_data:
the Base-network quote prices amount wei of USR; when the resulting
USDC/USR rate is below 0.9 and USR is configured on the ethereum network,
the same amount is re-quoted on Ethereum and the Ethereum result is kept
exactly when its rate is greater than or equal to the Base rate; in every
other case the Base result is kept. Rates are USDC units per token unit,
each side normalized by its own declared decimals. -/
def usrLegConversion (amount : ℕ) (baseDecimals ethDecimals : ℕ)
    (baseQuote : Option ℕ) (ethQuote : Option ℕ) (usrOnEthereum : Bool) :
    Option UsrConversionOut :=
  match baseQuote with
  | none => none
  | some baseUsdc =>
      let rate : ℚ := ((baseUsdc : ℚ) / 10 ^ 6) / ((amount : ℚ) / 10 ^ baseDecimals)
      if rate < 9 / 10 then
        if usrOnEthereum then
          match ethQuote with
          | some ethUsdc =>
              let ethRate : ℚ := ((ethUsdc : ℚ) / 10 ^ 6) / ((amount : ℚ) / 10 ^ ethDecimals)
              if rate ≤ ethRate then some { usdcAmount := ethUsdc, rate := ethRate }
              else some { usdcAmount := baseUsdc, rate := rate }
          | none => some { usdcAmount := baseUsdc, rate := rate }
        else some { usdcAmount := baseUsdc, rate := rate }
      else some { usdcAmount := baseUsdc, rate := rate }

/-- Pro-rata leg amount of the LP decomposition (pt_amount and sy_amount in
both balance managers): the share fraction holderBalance / totalSupply is
formed by Decimal division first, multiplied by the leg total, and the
product truncated to an integer by int(). -/
def legAmount (totalLeg holderBalance totalSupply : ℕ) : ℕ :=
  (((totalLeg : ℚ)) * ((holderBalance : ℚ) / (totalSupply : ℚ))).floor.toNat

/-- One Equilibria pool position as seen by BalanceManager.get_balances: the
staked balance (get_staked_balance returns 0 on a read error and never
raises), the outcome of get_remove_liquidity_data for that balance (which
raises when both methods fail), and the total USDC value of its rewards
(get_reward_value_in_usdc returns 0 on failure and never raises). -/
structure EqPool where
  id : String
  balance : ℕ
  pricing : Except String ℕ
  rewardsUsdc : ℕ

/-- The position loop of equilibria BalanceManager.get_balances: zero
balances are skipped; each priced position contributes its USDC value plus
its rewards value; an exception raised while pricing any position
propagates out of the loop. -/
def eqProcessPools : List EqPool → Except String (List (String × ℕ) × ℕ)
  | [] => .ok ([], 0)
  | p :: rest =>
      if p.balance = 0 then eqProcessPools rest
      else
        match p.pricing with
        | .error e => .error e
        | .ok usdc =>
            match eqProcessPools rest with
            | .error e => .error e
            | .ok (ps, tot) =>
                .ok ((p.id, usdc + p.rewardsUsdc) :: ps, usdc + p.rewardsUsdc + tot)

/-- Output of equilibria BalanceManager.get_balances: the per-position
values and the protocol total in USDC minor units. -/
structure EqBalancesResult where
  positions : List (String × ℕ)
  totalWei : ℕ
deriving DecidableEq

/-- equilibria BalanceManager.get_balances: the whole position loop runs
inside a single try block; any exception makes the function return the
skeleton result containing only a zero total, with every position dropped. -/
def eqGetBalances (pools : List EqPool) : EqBalancesResult :=
  match eqProcessPools pools with
  | .ok (ps, tot) => { positions := ps, totalWei := tot }
  | .error _ => { positions := [], totalWei := 0 }

/-- Helper: Rat.floor of a natural-number cast is that number. -/
theorem ratFloor_natCast (n : ℕ) : Rat.floor ((n : ℚ)) = (n : ℤ) := by
  rw [Rat.floor_def']
  simp

/-- C2 counterexample: six consecutive recorded failures exceed the
threshold of 5, yet consecutive_failures is still 0 and the circuit breaker
has not tripped — handle_rate_limit_error never updates either field, so
the claimed trip-and-fail-fast behaviour does not exist in the code. -/
theorem handleRateLimitError_six_failures_no_trip :
    circuitBreakerThreshold < 6 ∧
    (Nat.iterate RateLimiter.handleRateLimitError 6 initRateLimiter).consecutiveFailures = 0 ∧
    (Nat.iterate RateLimiter.handleRateLimitError 6 initRateLimiter).circuitBreakerTriggered
      = false := by
  decide

/-- C2 (amended): a failure recorded by handle_rate_limit_error only raises
backoff_delay — to 2 on a first failure, else doubled and capped at
max_backoff = 120 — and leaves consecutive_failures, the circuit-breaker
flag and the circuit-breaker timestamp unchanged; consequently, after any
number of consecutive failures from the initial state, consecutive_failures
is still 0 and the breaker has never tripped, so no call is ever blocked by
it. -/
theorem handleRateLimitError_state_change (st : RateLimiter) :
    (st.handleRateLimitError).backoffDelay
        = (if st.backoffDelay = 0 then 2 else min (st.backoffDelay * 2) maxBackoff) ∧
    (st.handleRateLimitError).consecutiveFailures = st.consecutiveFailures ∧
    (st.handleRateLimitError).circuitBreakerTriggered = st.circuitBreakerTriggered ∧
    (st.handleRateLimitError).circuitBreakerTime = st.circuitBreakerTime ∧
    ∀ n : ℕ,
      (Nat.iterate RateLimiter.handleRateLimitError n initRateLimiter).consecutiveFailures = 0 ∧
      (Nat.iterate RateLimiter.handleRateLimitError n initRateLimiter).circuitBreakerTriggered
        = false := by
  refine ⟨rfl, rfl, rfl, rfl, ?_⟩
  intro n
  induction n with
  | zero => exact ⟨rfl, rfl⟩
  | succ n ih =>
      rw [Function.iterate_succ_apply']
      exact ih

/-- C6 counterexample: after a failure raises backoff_delay to 2, calling
reset_rate_limiter puts backoff_delay back to zero although no successful
call happened — so backoff_delay does not transition to zero only as a
consequence of a successful call. -/
theorem resetRateLimiter_zeroes_backoff_without_success :
    (initRateLimiter.handleRateLimitError).backoffDelay = 2 ∧
    (resetRateLimiter (initRateLimiter.handleRateLimitError)).backoffDelay = 0 := by
  decide

/-- C6 (amended): backoff_delay is set to zero only by reset_backoff (the
reset performed after a successful request) and by the explicit
reset_rate_limiter reinitialization; the operations wait_if_needed,
adjust_delay_for_load and handle_rate_limit_error never zero it — the
first two leave it unchanged and a recorded failure always leaves it
positive. -/
theorem backoff_zeroed_only_by_resets (st : RateLimiter) (tAfter : ℚ) (n : ℕ) :
    (st.waitIfNeeded tAfter).backoffDelay = st.backoffDelay ∧
    (st.adjustDelayForLoad n).backoffDelay = st.backoffDelay ∧
    0 < (st.handleRateLimitError).backoffDelay ∧
    (st.resetBackoff).backoffDelay = 0 ∧
    (resetRateLimiter st).backoffDelay = 0 := by
  refine ⟨rfl, rfl, ?_, ?_, rfl⟩
  · simp only [RateLimiter.handleRateLimitError, maxBackoff]
    split
    · omega
    · next h => omega
  · simp only [RateLimiter.resetBackoff]
    split
    · rfl
    · next h => omega

/-- C3: when the sell token is the reference asset (token_symbol USDC),
get_quote returns the identity conversion — buyAmount and sellAmount both
equal the input amount, feeAmount is 0, the rate is 1, the fallback flag is
clear — and the list of make_request invocations is empty, i.e. zero
network calls are performed. -/
theorem getQuote_usdc_identity (network sellToken buyToken : String) (amount : ℕ)
    (tokenDecimals : ℕ) (env : ℕ → MakeRequestResult) :
    getQuote network sellToken buyToken amount tokenDecimals "USDC" env =
      { result :=
          { quote := some { buyAmount := amount, sellAmount := amount, feeAmount := 0 }
            conversionDetails :=
              { source := "Direct"
                priceImpact := "0"
                rate := 1
                feePercentage := some 0
                fallback := false
                note := "Direct 1:1 conversion" } }
        requests := [] } := by
  rfl

/-- C8: the pro-rata leg amount is the leg total times the share fraction
holderBalance / totalSupply, with the division carried out in exact decimal
arithmetic before truncation, which agrees with the combined rational
product; at the documented test point — total supply 1,000,000, holder
balance 100,000, leg outstanding 500,000 — the result is exactly 50,000,
both in whole units and scaled to 18-decimal minor units. -/
theorem legAmount_pro_rata :
    (∀ totalLeg holderBalance totalSupply : ℕ,
        legAmount totalLeg holderBalance totalSupply
          = (((totalLeg : ℚ) * holderBalance) / totalSupply).floor.toNat) ∧
    legAmount 500000 100000 1000000 = 50000 ∧
    legAmount (500000 * 10 ^ 18) (100000 * 10 ^ 18) (1000000 * 10 ^ 18) = 50000 * 10 ^ 18 := by
  refine ⟨?_, ?_, ?_⟩
  · intro t b s
    unfold legAmount
    rw [mul_div_assoc]
  · simp only [legAmount]
    have h1 : ((500000 : ℕ) : ℚ) * (((100000 : ℕ) : ℚ) / ((1000000 : ℕ) : ℚ))
        = ((50000 : ℕ) : ℚ) := by
      push_cast
      norm_num
    rw [h1, ratFloor_natCast]
    simp
  · simp only [legAmount]
    have h2 : ((500000 * 10 ^ 18 : ℕ) : ℚ)
          * (((100000 * 10 ^ 18 : ℕ) : ℚ) / ((1000000 * 10 ^ 18 : ℕ) : ℚ))
        = ((50000 * 10 ^ 18 : ℕ) : ℚ) := by
      push_cast
      norm_num
    rw [h2, ratFloor_natCast]
    simp

/-- Helper: a rational between z and z + 1 has Rat.floor z. -/
theorem ratFloor_eq (q : ℚ) (z : ℤ) (h1 : (z : ℚ) ≤ q) (h2 : q < z + 1) :
    Rat.floor q = z := by
  have hq : Rat.floor q = ⌊q⌋ := rfl
  rw [hq, Int.floor_eq_iff]
  exact ⟨h1, h2⟩

/-- C1 counterexample: both methods produced usable USDC amounts (direct
100, fallback 95), but the fallback CoWSwap quote came through the
reference-amount path whose conversion_details price_impact is the literal
N/A — so float(price_impact) raises ValueError before any comparison and
get_remove_liquidity_data raises instead of returning the larger amount
with method Direct. -/
theorem reconcileRemoveLiquidity_na_price_impact_raises :
    reconcileRemoveLiquidity (some { amount := 100, priceImpact := 0 }) (some (95, "N/A")) =
      .error "could not convert string to float: N/A" := by
  rfl

/-- C1 (amended): whenever both the multi-aggregator direct method and the
decomposition fallback produced usable USDC amounts (a surviving direct
result and a positive fallback amount) and the fallback quote's
price_impact string parses as a float (as on the direct CoWSwap quote
path), get_remove_liquidity_data returns the larger amount, ties going to
the direct method: the reported method is Direct exactly when the direct
amount is greater than or equal to the fallback amount, and Fallback
otherwise. When the price_impact string does not parse — the literal N/A
of the reference-amount fallback path — the function raises ValueError
before comparing. -/
theorem reconcileRemoveLiquidity_takes_larger (d : DirectResult) (fb : ℕ) (piStr : String)
    (fpi : ℚ) (hpi : pyFloat? piStr = some fpi) (hfb : 0 < fb) :
    reconcileRemoveLiquidity (some d) (some (fb, piStr)) =
      .ok { amount := max d.amount fb
            priceImpact := if fb ≤ d.amount then d.priceImpact else fpi
            method := if fb ≤ d.amount then "Direct" else "Fallback"
            direct := some d
            fallback := some (fb, fpi) } := by
  simp only [reconcileRemoveLiquidity, hpi, if_pos hfb]
  by_cases h : fb ≤ d.amount
  · simp [h, max_eq_left h]
  · simp [h, max_eq_right (le_of_not_le h)]

/-- C1 witness: direct 100 versus fallback 95 with a parseable price_impact
string yields 100 with method Direct. -/
theorem reconcileRemoveLiquidity_takes_larger_witness :
    reconcileRemoveLiquidity (some { amount := 100, priceImpact := 0 }) (some (95, "0")) =
      .ok { amount := 100, priceImpact := 0, method := "Direct"
            direct := some { amount := 100, priceImpact := 0 }
            fallback := some (95, 0) } := by
  have hparse : pyFloat? "0" = some 0 := by
    have hstep : pyFloat? "0"
        = some (1 * (((digitsVal ['0'] : ℚ))
            + ((digitsVal ([] : List Char) : ℚ)) / 10 ^ (0 : ℕ))) := rfl
    have d1 : digitsVal ['0'] = 0 := rfl
    have d2 : digitsVal ([] : List Char) = 0 := rfl
    rw [hstep, d1, d2]
    simp
  have h := reconcileRemoveLiquidity_takes_larger
    { amount := 100, priceImpact := 0 } 95 "0" 0 hparse (by norm_num)
  rw [h]
  norm_num

/-- C5: when the direct attempt comes back with an insufficient-liquidity or
fee-floor error text, get_quote re-requests at the fixed reference amount of
1000 whole tokens (1000 * 10 ^ tokenDecimals), derives the rate from that
response in exact decimal arithmetic, scales it onto the original amount,
truncates to USDC minor units — the returned buyAmount is the floor of
amount * referenceBuy / referenceSell — and flags the result as an
approximate fallback. -/
theorem getQuote_fallback_reference_amount
    (network sellToken buyToken : String) (amount tokenDecimals : ℕ) (tokenSymbol : String)
    (env : ℕ → MakeRequestResult) (s : String) (fbuy fsell ffee : ℕ) (fpi : String)
    (hsym : ¬ tokenSymbol = "USDC")
    (hdirect : env amount = .errText s)
    (herr : strContains s "SellAmountDoesNotCoverFee" = true ∨
      strContains s "NoLiquidity" = true)
    (hfallback : env (1000 * 10 ^ tokenDecimals) = .okQuote fbuy fsell ffee fpi)
    (hsell : 0 < fsell) :
    getQuote network sellToken buyToken amount tokenDecimals tokenSymbol env =
      { result :=
          { quote := some
              { buyAmount := (((amount : ℚ) * fbuy) / fsell).floor.toNat
                sellAmount := amount
                feeAmount := 0 }
            conversionDetails :=
              { source := "CoWSwap-Fallback"
                priceImpact := "N/A"
                rate := ((fbuy : ℚ) / 10 ^ 6) / ((fsell : ℚ) / 10 ^ tokenDecimals)
                feePercentage := none
                fallback := true
                note := "Using reference amount of 1000 tokens for price discovery" } }
        requests := [amount, 1000 * 10 ^ tokenDecimals] } := by
  have hc : (strContains s "SellAmountDoesNotCoverFee" || strContains s "NoLiquidity" ||
      strContains s "Request failed") = true := by
    rcases herr with h | h <;> simp [h]
  have hfsell : ((fsell : ℚ)) ≠ 0 := Nat.cast_ne_zero.mpr (Nat.pos_iff_ne_zero.mp hsell)
  have key : ((amount : ℚ) / 10 ^ tokenDecimals)
        * (((fbuy : ℚ) / 10 ^ 6) / ((fsell : ℚ) / 10 ^ tokenDecimals)) * 10 ^ 6
      = ((amount : ℚ) * fbuy) / fsell := by
    field_simp
    ring
  simp only [getQuote, if_neg hsym, hdirect, hc, if_true, hfallback, key]

/-- C5 witness: for a 5-wei request on a 0-decimal token whose direct quote
fails with NoLiquidity, the reference quote 900 USDC-wei for 1000 tokens
yields floor(5 * 900 / 1000) = 4, demonstrating truncation of the scaled
value, with both requests traced. -/
theorem getQuote_fallback_reference_amount_witness :
    getQuote "base" "0xtoken" "0xusdc" 5 0 "TKN"
        (fun n => if n = 5 then .errText "NoLiquidity" else .okQuote 900 1000 0 "0") =
      { result :=
          { quote := some { buyAmount := 4, sellAmount := 5, feeAmount := 0 }
            conversionDetails :=
              { source := "CoWSwap-Fallback"
                priceImpact := "N/A"
                rate := 9 / 10000000
                feePercentage := none
                fallback := true
                note := "Using reference amount of 1000 tokens for price discovery" } }
        requests := [5, 1000] } := by
  have h := getQuote_fallback_reference_amount "base" "0xtoken" "0xusdc" 5 0 "TKN"
      (fun n => if n = 5 then .errText "NoLiquidity" else .okQuote 900 1000 0 "0")
      "NoLiquidity" 900 1000 0 "0" (by decide) (by norm_num) (Or.inr (by decide))
      (by norm_num) (by norm_num)
  rw [h]
  have hfloor : Rat.floor (((5 : ℕ) : ℚ) * ((900 : ℕ) : ℚ) / ((1000 : ℕ) : ℚ)) = 4 := by
    apply ratFloor_eq <;> push_cast <;> norm_num
  have hrate : (((900 : ℕ) : ℚ) / 10 ^ 6) / (((1000 : ℕ) : ℚ) / 10 ^ 0) = 9 / 10000000 := by
    push_cast
    norm_num
  rw [hfloor, hrate]
  norm_num
  rfl

/-- C7: when the Base-network USR rate falls below the 0.9 sanity floor and
the Ethereum retry returns a quote, the kept result is the one with the
higher rate — the Ethereum result exactly when its rate is greater than or
equal to the Base rate, the Base result otherwise — with no further floor
check on the kept rate. -/
theorem usrLegConversion_keeps_higher_rate (amount baseUsdc ethUsdc : ℕ)
    (baseDecimals ethDecimals : ℕ)
    (hlow : ((baseUsdc : ℚ) / 10 ^ 6) / ((amount : ℚ) / 10 ^ baseDecimals) < 9 / 10) :
    usrLegConversion amount baseDecimals ethDecimals (some baseUsdc) (some ethUsdc) true =
      some { usdcAmount :=
               if ((baseUsdc : ℚ) / 10 ^ 6) / ((amount : ℚ) / 10 ^ baseDecimals)
                   ≤ ((ethUsdc : ℚ) / 10 ^ 6) / ((amount : ℚ) / 10 ^ ethDecimals)
               then ethUsdc else baseUsdc
             rate := max (((baseUsdc : ℚ) / 10 ^ 6) / ((amount : ℚ) / 10 ^ baseDecimals))
                         (((ethUsdc : ℚ) / 10 ^ 6) / ((amount : ℚ) / 10 ^ ethDecimals)) } := by
  simp only [usrLegConversion, if_pos hlow, if_true]
  by_cases h : ((baseUsdc : ℚ) / 10 ^ 6) / ((amount : ℚ) / 10 ^ baseDecimals)
      ≤ ((ethUsdc : ℚ) / 10 ^ 6) / ((amount : ℚ) / 10 ^ ethDecimals)
  · simp [h, max_eq_right h]
  · simp [h, max_eq_left (le_of_not_le h)]

/-- C7 witness: a Base rate of 0.5 (below the floor) and an Ethereum rate of
0.8 keep the Ethereum amount, even though 0.8 is itself still below 0.9. -/
theorem usrLegConversion_keeps_higher_rate_witness :
    usrLegConversion 1000000 6 6 (some 500000) (some 800000) true =
      some { usdcAmount := 800000, rate := 4 / 5 } ∧ (4 / 5 : ℚ) < 9 / 10 := by
  constructor
  · have h := usrLegConversion_keeps_higher_rate 1000000 500000 800000 6 6
      (by push_cast; norm_num)
    rw [h]
    have hb : (((500000 : ℕ) : ℚ) / 10 ^ 6) / (((1000000 : ℕ) : ℚ) / 10 ^ 6) = 1 / 2 := by
      push_cast
      norm_num
    have he : (((800000 : ℕ) : ℚ) / 10 ^ 6) / (((1000000 : ℕ) : ℚ) / 10 ^ 6) = 4 / 5 := by
      push_cast
      norm_num
    rw [hb, he]
    norm_num
  · norm_num

/-- C9: a portfolio of two staked Equilibria pools where pricing the first
raises (both methods failed) while the second would have priced at 150
USDC — get_balances catches the exception around the whole position loop
and returns the zero-total skeleton: the second position is not computed
and the failed one is silently dropped instead of appearing marked as
unpriced. -/
theorem eqGetBalances_single_failure_zeroes_all :
    eqGetBalances
        [{ id := "pool-A", balance := 100
           pricing := .error "Both direct and fallback methods failed", rewardsUsdc := 0 },
         { id := "pool-B", balance := 200, pricing := .ok 150, rewardsUsdc := 0 }] =
      { positions := [], totalWei := 0 } := by
  rfl

/-- Helper: the batch loop visits every element exactly once in order. -/
theorem batchRun_eq_map {α β : Type} (q : α → β) (bs : ℕ) :
    ∀ (n : ℕ) (l : List α), l.length ≤ n → batchRun q bs l = l.map q := by
  intro n
  induction n with
  | zero =>
      intro l hl
      have hnil : l = [] := List.length_eq_zero.mp (Nat.le_zero.mp hl)
      subst hnil
      simp [batchRun]
  | succ n ih =>
      intro l hl
      match l with
      | [] => simp [batchRun]
      | x :: xs =>
          rw [batchRun]
          rw [ih (xs.drop bs) (by simp only [List.length_drop]; simp at hl; omega)]
          have hdrop : xs.drop bs = (x :: xs).drop (bs + 1) := rfl
          rw [hdrop, ← List.map_append, List.take_append_drop]

/-- C10: for every positive batch_size, batch_get_quotes returns exactly the
per-request get_quote results in input order — the i-th result is get_quote
applied to the i-th request; batching only paces the calls. -/
theorem batchGetQuotes_eq_map {α β : Type} (q : α → β) (reqs : List α) (batchSize : ℕ)
    (h : 1 ≤ batchSize) :
    batchGetQuotes q reqs batchSize = .ok (reqs.map q) := by
  match batchSize, h with
  | bs + 1, _ =>
      simp only [batchGetQuotes]
      rw [batchRun_eq_map q bs reqs.length reqs le_rfl]

/-- C10 witness: three requests in batches of two produce the three mapped
results in order. -/
theorem batchGetQuotes_eq_map_witness :
    batchGetQuotes (fun n : ℕ => n + 10) [1, 2, 3] 2 = .ok [11, 12, 13] := by
  have h := batchGetQuotes_eq_map (fun n : ℕ => n + 10) [1, 2, 3] 2 (by norm_num)
  rw [h]
  rfl

/-- C4 counterexample, refuting both halves of the claim at concrete
inputs: a single backend that succeeds with amountOut 0 is a candidate with
the greatest amountOut, yet the comparator raises instead of returning it —
best_amount starts at 0 and only a strictly greater amount is ever
accepted; and a single backend of cost 5 whose shape-valid response fails
numeric parsing after the cost increment is charged again in the except
block, so the total charged is 10, not the sum 5 of the queried backends'
costs. -/
theorem multiAggregatorQuotes_zero_amount_success_raises :
    multiAggregatorQuotes [{ name := "kyberswap", cost := 5, outcome := .ok 0 0 }] =
      .error "All aggregators failed to provide quotes" ∧
    (runAggregators
      [{ name := "kyberswap", cost := 5,
         outcome := .parseError "invalid literal for int() with base 10" }]).unitsUsed = 10 := by
  exact ⟨rfl, rfl⟩

/-- Helper: folding the aggregator step over the backends charges every
cost once — plus a second time for each backend whose response failed
parsing after the charge — and replaces the incoming best candidate exactly
when some valid response strictly exceeds it, in which case the first
backend attaining the maximum valid amount wins. -/
theorem foldl_aggStep_spec (bs : List Backend) :
    ∀ (cur : Option (String × ℕ × ℚ)) (u : ℕ),
      bs.foldl aggStep { best := cur, unitsUsed := u } =
        { best := if bestAmountOf cur < maxSuccessAmount bs
                  then findSuccessEq (maxSuccessAmount bs) bs else cur
          unitsUsed := u + totalCost bs + parseErrorCost bs } := by
  induction bs with
  | nil =>
      intro cur u
      simp [maxSuccessAmount, totalCost, parseErrorCost]
  | cons b rest ih =>
      intro cur u
      rw [List.foldl_cons]
      cases hb : b.outcome with
      | ok a pi =>
          simp only [aggStep, hb]
          by_cases h1 : bestAmountOf cur < a
          · rw [if_pos h1, ih (some (b.name, a, pi)) (u + b.cost)]
            have hba : bestAmountOf (some (b.name, a, pi)) = a := rfl
            rw [hba]
            simp only [maxSuccessAmount, hb, findSuccessEq, totalCost, parseErrorCost,
              List.map_cons, List.sum_cons]
            by_cases h2 : a < maxSuccessAmount rest
            · have hmax : max a (maxSuccessAmount rest) = maxSuccessAmount rest :=
                max_eq_right (le_of_lt h2)
              have hcond : bestAmountOf cur < max a (maxSuccessAmount rest) := by
                omega
              rw [if_pos h2, if_pos hcond, hmax, if_neg (by omega : ¬ a = maxSuccessAmount rest)]
              congr 1
              omega
            · have hmax : max a (maxSuccessAmount rest) = a :=
                max_eq_left (le_of_not_lt h2)
              have hcond : bestAmountOf cur < max a (maxSuccessAmount rest) := by
                omega
              rw [if_neg h2, if_pos hcond, hmax, if_pos rfl]
              congr 1
              omega
          · rw [if_neg h1, ih cur (u + b.cost)]
            simp only [maxSuccessAmount, hb, findSuccessEq, totalCost, parseErrorCost,
              List.map_cons, List.sum_cons]
            by_cases h2 : bestAmountOf cur < maxSuccessAmount rest
            · have hmax : max a (maxSuccessAmount rest) = maxSuccessAmount rest := by
                omega
              have hcond : bestAmountOf cur < max a (maxSuccessAmount rest) := by
                omega
              rw [if_pos h2, if_pos hcond, hmax, if_neg (by omega : ¬ a = maxSuccessAmount rest)]
              congr 1
              omega
            · have hcond : ¬ bestAmountOf cur < max a (maxSuccessAmount rest) := by
                omega
              rw [if_neg h2, if_neg hcond]
              congr 1
              omega
      | invalidResponse =>
          simp only [aggStep, hb]
          rw [ih cur (u + b.cost)]
          simp only [maxSuccessAmount, hb, findSuccessEq, totalCost, parseErrorCost,
            List.map_cons, List.sum_cons]
          congr 1
          omega
      | requestError msg =>
          simp only [aggStep, hb]
          rw [ih cur (u + b.cost)]
          simp only [maxSuccessAmount, hb, findSuccessEq, totalCost, parseErrorCost,
            List.map_cons, List.sum_cons]
          congr 1
          omega
      | parseError msg =>
          simp only [aggStep, hb]
          rw [ih cur (u + b.cost + b.cost)]
          simp only [maxSuccessAmount, hb, findSuccessEq, totalCost, parseErrorCost,
            List.map_cons, List.sum_cons]
          congr 1
          omega

/-- Helper: when the maximum valid amount is positive, some backend attains
it, so the first-attaining search succeeds. -/
theorem findSuccessEq_isSome (bs : List Backend) (h : 0 < maxSuccessAmount bs) :
    (findSuccessEq (maxSuccessAmount bs) bs).isSome = true := by
  induction bs with
  | nil => simp [maxSuccessAmount] at h
  | cons b rest ih =>
      cases hb : b.outcome with
      | ok a pi =>
          simp only [maxSuccessAmount, hb, findSuccessEq] at h ⊢
          by_cases hcase : a = max a (maxSuccessAmount rest)
          · rw [if_pos hcase]
            rfl
          · have hlt : a < maxSuccessAmount rest := by
              rcases Nat.lt_or_ge a (maxSuccessAmount rest) with h1 | h1
              · exact h1
              · exact absurd (max_eq_left h1).symm hcase
            have hmax : max a (maxSuccessAmount rest) = maxSuccessAmount rest :=
              max_eq_right (le_of_lt hlt)
            rw [if_neg hcase, hmax]
            exact ih (by omega)
      | invalidResponse =>
          simp only [maxSuccessAmount, hb, findSuccessEq] at h ⊢
          exact ih h
      | requestError msg =>
          simp only [maxSuccessAmount, hb, findSuccessEq] at h ⊢
          exact ih h
      | parseError msg =>
          simp only [maxSuccessAmount, hb, findSuccessEq] at h ⊢
          exact ih h

/-- C4 (amended): the comparator queries the backends in iteration order
and charges every queried backend its fixed cost once whether it succeeded,
returned an invalid shape, or errored before its response was handled —
except that a backend whose shape-valid response fails numeric parsing
after the charge is charged a second time in the except block — so the
units consumed equal the sum of all backend costs plus the costs of those
double-charged backends; its winner is the first backend in iteration order
whose valid amountOut equals the maximum valid amountOut, provided that
maximum is positive — a greater amount always displaces an earlier winner
and an equal amount never does — and it raises exactly when no backend
reports a positive amountOut. -/
theorem multiAggregatorQuotes_selection_and_cost (bs : List Backend) :
    (runAggregators bs).unitsUsed = totalCost bs + parseErrorCost bs ∧
    (runAggregators bs).best =
      (if 0 < maxSuccessAmount bs then findSuccessEq (maxSuccessAmount bs) bs else none) ∧
    (multiAggregatorQuotes bs = .error "All aggregators failed to provide quotes" ↔
      maxSuccessAmount bs = 0) := by
  have h := foldl_aggStep_spec bs none 0
  have hbest : (runAggregators bs).best =
      (if 0 < maxSuccessAmount bs then findSuccessEq (maxSuccessAmount bs) bs else none) := by
    rw [runAggregators, h]
    simp [bestAmountOf]
  refine ⟨?_, hbest, ?_⟩
  · rw [runAggregators, h]
    simp
  · unfold multiAggregatorQuotes
    rw [hbest]
    by_cases hm : maxSuccessAmount bs = 0
    · simp [hm]
    · have hpos : 0 < maxSuccessAmount bs := Nat.pos_of_ne_zero hm
      rw [if_pos hpos]
      obtain ⟨x, hx⟩ := Option.isSome_iff_exists.mp (findSuccessEq_isSome bs hpos)
      obtain ⟨nm, a, pi⟩ := x
      rw [hx]
      simp [hm]
